import Mathlib

/-!
Verification of the TicketDive event scraper
(`parseTicketDiveHtml`, `isValidEventName`, `isValidVenueName`,
`scrapeTicketDiveEvent` in `src/lib` of the repository).

JavaScript strings are modelled as `List Char` (abbreviated `Str` below);
positions count characters.  Every character occurring in the code's string
literals and in the fixtures below lies in the Basic Multilingual Plane,
where JavaScript's UTF-16 indices agree with character counts.

Each regular-expression operation of the source is embedded as an explicit
scanner on `List Char` implementing the (deterministic fragment of the)
backtracking semantics of the JavaScript regex engine for that particular
pattern.  `String.replace(re, r)` with a global regex is modelled as a
left-to-right scan that at each position first tries to match the pattern
(emitting the replacement and resuming after the match) and otherwise
copies one character.
-/

set_option maxRecDepth 1000000

abbrev Str := List Char

/-- The JavaScript `\s` character class (`[ \t\n\v\f\r]`, NBSP, BOM and the
Unicode space separators). -/
def jsWs (c : Char) : Bool :=
  c = ' ' || c = '\t' || c = '\n' || c = '\r' || c = '\x0b' || c = '\x0c' ||
  c.val = 0xa0 || c.val = 0x1680 || (0x2000 ≤ c.val && c.val ≤ 0x200a) ||
  c.val = 0x2028 || c.val = 0x2029 || c.val = 0x202f || c.val = 0x205f ||
  c.val = 0x3000 || c.val = 0xfeff

/-- Case-insensitive prefix test; `pat` is given already lower-cased
(the source's `/i` patterns are ASCII). -/
def startsWithCI : Str → Str → Bool
  | [], _ => true
  | _ :: _, [] => false
  | p :: ps, c :: cs => p = c.toLower && startsWithCI ps cs

/-- Case-sensitive substring occurrence. -/
def containsSub (pat : Str) : Str → Bool
  | [] => pat.isPrefixOf []
  | c :: cs => pat.isPrefixOf (c :: cs) || containsSub pat cs

/-- Case-insensitive substring occurrence (`pat` lower-cased). -/
def containsCI (pat : Str) : Str → Bool
  | [] => startsWithCI pat []
  | c :: cs => startsWithCI pat (c :: cs) || containsCI pat cs

/-- Index of the first occurrence of `pat` starting the count at `i`
(tail-recursive so that long documents evaluate in constant stack). -/
def findIdxSubAux (pat : Str) : Nat → Str → Option Nat
  | i, [] => if pat.isPrefixOf ([] : Str) then some i else none
  | i, c :: cs => if pat.isPrefixOf (c :: cs) then some i else findIdxSubAux pat (i + 1) cs

/-- Index of the first occurrence of `pat` (JavaScript `indexOf`,
`none` for `-1`). -/
def findIdxSub? (pat : Str) (s : Str) : Option Nat := findIdxSubAux pat 0 s

/-- Index of the first case-insensitive occurrence of `pat`. -/
def findIdxCIAux (pat : Str) : Nat → Str → Option Nat
  | i, [] => if startsWithCI pat [] then some i else none
  | i, c :: cs => if startsWithCI pat (c :: cs) then some i else findIdxCIAux pat (i + 1) cs

def findIdxCI? (pat : Str) (s : Str) : Option Nat := findIdxCIAux pat 0 s

/-- First position (left to right) at which the position-wise matcher `t`
succeeds, with its result: the leftmost-match rule of a JavaScript regex
search. -/
def scanFirst (t : Str → Option α) : Str → Option α
  | [] => t []
  | c :: cs =>
    match t (c :: cs) with
    | some a => some a
    | none => scanFirst t cs

/-- Like `scanFirst` but also returns the match position. -/
def scanFirstIdxAux (t : Str → Option α) : Nat → Str → Option (Nat × α)
  | i, [] => (t []).map ((i, ·))
  | i, c :: cs =>
    match t (c :: cs) with
    | some a => some (i, a)
    | none => scanFirstIdxAux t (i + 1) cs

def scanFirstIdx (t : Str → Option α) (s : Str) : Option (Nat × α) :=
  scanFirstIdxAux t 0 s

/-- One pass of `String.replace(re, r)` with a global regex: at each
position try the matcher `t` (which returns the match length and the
replacement); on failure copy one character and advance.  The fuel is the
length of the scanned string; every step consumes at least one character,
so the fuel never runs out on the initial call.  The output is
accumulated in reverse (tail-recursively). -/
def replaceScanAux (t : Str → Option (Nat × Str)) : Nat → Str → Str → Str
  | 0, s, acc => acc.reverse ++ s
  | _ + 1, [], acc => acc.reverse
  | n + 1, c :: cs, acc =>
    match t (c :: cs) with
    | some (len, rep) =>
      replaceScanAux t n ((c :: cs).drop (max len 1)) (rep.reverse ++ acc)
    | none => replaceScanAux t n cs (c :: acc)

/-- JavaScript `s.replace(re, r)` for a global regex embedded as `t`. -/
def jsReplaceAll (t : Str → Option (Nat × Str)) (s : Str) : Str :=
  replaceScanAux t s.length s []

/-- JavaScript `s.substring(a, b)` for `a ≤ b` (both clipped to the
string bounds). -/
def jsSub (s : Str) (a b : Nat) : Str := (s.take b).drop a

/-- JavaScript `s.trim()`. -/
def jsTrim (s : Str) : Str :=
  ((s.dropWhile jsWs).reverse.dropWhile jsWs).reverse

/-- JavaScript `s.split(re)` where the regex is a single-character class
given by `p`; empty fields are kept, as in JavaScript.  Tail-recursive:
the current field and the finished fields are accumulated reversed. -/
def splitCharsAux (p : Char → Bool) : Str → Str → List Str → List Str
  | [], cur, acc => (cur.reverse :: acc).reverse
  | c :: cs, cur, acc =>
    if p c then splitCharsAux p cs [] (cur.reverse :: acc)
    else splitCharsAux p cs (c :: cur) acc

def splitChars (p : Char → Bool) (s : Str) : List Str := splitCharsAux p s [] []

/-- JavaScript `s.split(re)` where the regex is `[..]+` over the class `p`:
each maximal run of class characters is one separator. -/
def splitRunsAux (p : Char → Bool) : Nat → Str → List Str
  | 0, s => [s]
  | n + 1, s =>
    let head := s.takeWhile (fun c => !p c)
    let rest := s.dropWhile (fun c => !p c)
    match rest with
    | [] => [head]
    | _ :: rs => head :: splitRunsAux p n (rs.dropWhile p)

def splitRuns (p : Char → Bool) (s : Str) : List Str :=
  match s with
  | [] => [[]]
  | _ => splitRunsAux p s.length s

/-! ## The validity filters (`isValidEventName`, `isValidVenueName`) -/

/-- The regex `/\d+UNIT/i`: some digit immediately followed by the
(lower-cased) unit suffix. -/
def digitUnit (unit : Str) : Str → Bool
  | [] => false
  | c :: cs => (c.isDigit && startsWithCI unit cs) || digitUnit unit cs

/-- The regex `/<[^>]+>/`: an HTML-tag-shaped substring occurs. -/
def hasHtmlTag : Str → Bool
  | [] => false
  | c :: cs =>
    (c = '<' &&
      (match findIdxSub? ['>'] cs with
       | some j => decide (j ≠ 0)
       | none => false)) ||
    hasHtmlTag cs

/-- The regex `/^Event [A-Za-z0-9]+$/`. -/
def eventTemplateLeak (s : Str) : Bool :=
  "Event ".data.isPrefixOf s && (s.drop 6).length ≠ 0 &&
    (s.drop 6).all (fun c => c.isAlpha || c.isDigit)

/-- The regex `/path\s+fill/i`: `path`, at least one whitespace character,
then `fill` (all case-insensitive).  Because `fill` starts with a
non-whitespace character, the greedy `\s+` is equivalent to skipping the
whole whitespace run. -/
def pathFill : Str → Bool
  | [] => false
  | c :: cs =>
    (startsWithCI "path".data (c :: cs) &&
      (match cs.drop 3 with
       | d :: ds => jsWs d && startsWithCI "fill".data (ds.dropWhile jsWs)
       | [] => false)) ||
    pathFill cs

/-- `isValidEventName` from the source: length bounds 3..200 plus a list of
rejection patterns. -/
def isValidEventName (name : Str) : Bool :=
  if name.length < 3 || 200 < name.length then false
  else
    !(name = "申込受付中".data || name = "受付中".data ||
      name = "イベント".data || name = "公演".data ||
      containsCI "padding".data name || containsCI "margin".data name ||
      containsCI "font-".data name || containsCI "cursor:".data name ||
      containsCI "height:".data name || containsCI "width:".data name ||
      containsCI "display:".data name ||
      digitUnit "rem".data name || digitUnit "px".data name ||
      digitUnit "em".data name ||
      eventTemplateLeak name ||
      containsSub "日程未定".data name || name = "未定".data ||
      containsSub "チケットの分配".data name ||
      hasHtmlTag name || name.contains ';' ||
      (name.length ≠ 0 && name.all (fun c => c.isDigit || c = '.' || c = ':')) ||
      (name.length ≠ 0 && name.all (fun c => jsWs c || c.isDigit || c = '.')))

/-- `isValidVenueName` from the source: length bounds 2..200 plus a list of
rejection patterns. -/
def isValidVenueName (name : Str) : Bool :=
  if name.length < 2 || 200 < name.length then false
  else
    !(name = "会場未定".data || name = "未定".data ||
      name = "申込受付中".data || name = "受付中".data ||
      containsCI "padding".data name || containsCI "margin".data name ||
      pathFill name ||
      containsCI "svg".data name || containsCI "fill-rule".data name ||
      containsCI "clip-rule".data name || containsCI "evenodd".data name ||
      startsWithCI "d=\"".data name ||
      containsSub "チケットの分配".data name ||
      hasHtmlTag name ||
      name.all jsWs)

example : isValidEventName "春の単独公演".data = true := by decide
example : isValidEventName "受付中".data = false := by decide
example : isValidEventName "abc padding: 3px".data = false := by decide
example : isValidEventName "ab".data = false := by decide
example : isValidVenueName "Zepp Tokyo".data = true := by decide
example : isValidVenueName "会場未定".data = false := by decide
example : isValidVenueName "x <b>y</b>".data = false := by decide

/-! ## Pre-cleaning of the document (the five `replace` calls) -/

/-- Matcher for `/<svg[^>]*>[\s\S]*?<\/svg>/gi` at the current position:
`<svg`, everything up to the first `>`, then (lazily) everything up to the
first `</svg>`. -/
def svgMatch (s : Str) : Option (Nat × Str) :=
  if startsWithCI "<svg".data s then
    match findIdxSub? ['>'] (s.drop 4) with
    | none => none
    | some j =>
      match findIdxCI? "</svg>".data (s.drop (4 + j + 1)) with
      | none => none
      | some k => some (4 + j + 1 + k + 6, [])
  else none

/-- Matcher for `/<path[^>]*\/?>/gi` (and for the identically-behaved
`/<path[^>]*>/gi`): `<path` followed by everything up to the first `>`.
The optional `\/` adds nothing: the greedy `[^>]*` already reaches the
first `>`. -/
def pathMatch (s : Str) : Option (Nat × Str) :=
  if startsWithCI "<path".data s then
    match findIdxSub? ['>'] (s.drop 5) with
    | none => none
    | some j => some (5 + j + 1, [])
  else none

/-- Matcher for `/ATTR="[^"]*"/gi` (`fill-rule`, `clip-rule`, `d`):
the literal `ATTR="`, then everything up to the first `"`.  `attr`
includes the trailing `="`. -/
def attrMatch (attr : Str) (s : Str) : Option (Nat × Str) :=
  if startsWithCI attr s then
    match findIdxSub? ['"'] (s.drop attr.length) with
    | none => none
    | some j => some (attr.length + j + 1, [])
  else none

/-- The five pre-cleaning `replace` calls of `parseTicketDiveHtml`, in
source order. -/
def cleanTicketDiveHtml (s : Str) : Str :=
  jsReplaceAll (attrMatch "d=\"".data)
    (jsReplaceAll (attrMatch "clip-rule=\"".data)
      (jsReplaceAll (attrMatch "fill-rule=\"".data)
        (jsReplaceAll pathMatch
          (jsReplaceAll svgMatch s))))

/-! ## Anchor discovery (`/href="\/event\/([^"]+)"/g`) -/

/-- The repeated `exec` loop collecting the capture group of every match of
`/href="\/event\/([^"]+)"/g`.  On a successful match scanning resumes after
the closing quote; otherwise it advances one character.  The fuel is the
string length, which bounds the number of steps. -/
def extractIdsAux : Nat → Str → List Str → List Str
  | 0, _, acc => acc.reverse
  | _ + 1, [], acc => acc.reverse
  | n + 1, c :: cs, acc =>
    if "href=\"/event/".data.isPrefixOf (c :: cs) then
      let r := (c :: cs).drop 13
      match findIdxSub? ['"'] r with
      | some j =>
        if j = 0 then extractIdsAux n cs acc
        else extractIdsAux n ((c :: cs).drop (13 + j + 1)) (r.take j :: acc)
      | none => extractIdsAux n cs acc
    else extractIdsAux n cs acc

def extractEventIds (s : Str) : List Str := extractIdsAux s.length s []

/-! ## The date pattern `/(\d{4})\/(\d{1,2})\/(\d{1,2})/` -/

/-- Exactly `n` digits from the front. -/
def exactDigits : Nat → Str → Option (Str × Str)
  | 0, s => some ([], s)
  | _ + 1, [] => none
  | n + 1, c :: cs =>
    if c.isDigit then (exactDigits n cs).map (fun p => (c :: p.1, p.2)) else none

/-- Greedy `\d{1,2}` followed by a mandatory `/` (with the one-step
backtrack of the regex engine). -/
def digits12Slash (s : Str) : Option (Str × Str) :=
  match s with
  | a :: b :: c :: r =>
    if a.isDigit && b.isDigit && c = '/' then some ([a, b], r)
    else if a.isDigit && b = '/' then some ([a], c :: r)
    else none
  | [a, b] => if a.isDigit && b = '/' then some ([a], []) else none
  | _ => none

/-- Greedy `\d{1,2}` at the end of the pattern (no trailing constraint). -/
def digits12End (s : Str) : Option Str :=
  match s with
  | a :: b :: _ =>
    if a.isDigit && b.isDigit then some [a, b]
    else if a.isDigit then some [a] else none
  | [a] => if a.isDigit then some [a] else none
  | [] => none

/-- The date pattern matched at the current position; returns the full
matched text (`dateMatch[0]` is all the code uses). -/
def dateAt (s : Str) : Option Str :=
  match exactDigits 4 s with
  | none => none
  | some (y, r1) =>
    match r1 with
    | '/' :: r2 =>
      match digits12Slash r2 with
      | none => none
      | some (m, r3) =>
        match digits12End r3 with
        | none => none
        | some d => some (y ++ '/' :: (m ++ '/' :: d))
    | _ => none

/-- `context.match(datePattern)`: leftmost match of the date pattern,
with its position. -/
def findDate (s : Str) : Option (Nat × Str) := scanFirstIdx dateAt s

example : findDate "ab 2026/3/15 x".data = some (3, "2026/3/15".data) := by decide
example : findDate "12345/6/7".data = some (1, "2345/6/7".data) := by decide
example : findDate "2026/345".data = none := by decide
example : findDate "x 2026/12/315".data = some (2, "2026/12/31".data) := by decide

/-! ## Name extraction (the `beforeDate` pipeline) -/

/-- Matcher for `/<[^>]+>/g`: `<`, at least one non-`>`, then `>`;
replaced by `rep`. -/
def tagMatch (rep : Str) (s : Str) : Option (Nat × Str) :=
  match s with
  | '<' :: r =>
    match findIdxSub? ['>'] r with
    | some j => if j = 0 then none else some (1 + j + 1, rep)
    | none => none
  | _ => none

/-- Matcher for `/&[^;]+;/g`: an HTML entity, replaced by a space. -/
def entityMatch (s : Str) : Option (Nat × Str) :=
  match s with
  | '&' :: r =>
    match findIdxSub? [';'] r with
    | some j => if j = 0 then none else some (1 + j + 1, " ".data)
    | none => none
  | _ => none

/-- Length of the whitespace run at the front. -/
def wsRun : Str → Nat
  | [] => 0
  | c :: cs => if jsWs c then wsRun cs + 1 else 0

/-- Matcher for `/\s+/g`, replaced by a single space. -/
def wsMatch (s : Str) : Option (Nat × Str) :=
  match s with
  | c :: _ => if jsWs c then some (wsRun s, " ".data) else none
  | [] => none

/-- The `cleanBeforeDate` pipeline: tags to newlines, entities to spaces,
whitespace collapsed, then trimmed. -/
def cleanBeforeDateOf (beforeDate : Str) : Str :=
  jsTrim (jsReplaceAll wsMatch
    (jsReplaceAll entityMatch
      (jsReplaceAll (tagMatch ['\n']) beforeDate)))

/-- The nested name-selection loop: lines (split on `[\n\r]+`, trimmed,
non-empty, reversed), then per line chunks (split on `[|>]`, trimmed,
non-empty, reversed); the first chunk of length 5..100 passing
`isValidEventName` wins and stops both loops. -/
def pickEventName (cleanBefore : Str) : Option Str :=
  let lines :=
    (((splitRuns (fun c => c = '\n' || c = '\r') cleanBefore).map jsTrim).filter
      (fun l => l.length ≠ 0)).reverse
  lines.findSome? fun line =>
    let chunks :=
      (((splitChars (fun c => c = '|' || c = '>') line).map jsTrim).filter
        (fun c => c.length ≠ 0)).reverse
    chunks.find? fun c => 5 ≤ c.length && c.length ≤ 100 && isValidEventName c

/-! ## Venue extraction -/

/-- The tail of a venue CSS regex after a chosen `class="` occurrence:
`[^"]*CLS[^"]*"` (the class value up to the first `"` must contain `cls`),
then `[^>]*>` (up to the first `>`), then the capture `([^<]+)` (maximal,
non-empty), which must be followed by the literal `</TAG>`.  All literal
parts are case-insensitive; `r` is the text right after `<TAG`. -/
def cssTail (tag cls : Str) (r : Str) (j : Nat) : Option Str :=
  let afterCls := r.drop (j + 7)
  match findIdxSub? ['"'] afterCls with
  | none => none
  | some q =>
    if containsCI cls (afterCls.take q) then
      let afterQ := afterCls.drop (q + 1)
      match findIdxSub? ['>'] afterQ with
      | none => none
      | some g2 =>
        let afterGt := afterQ.drop (g2 + 1)
        let cap := afterGt.takeWhile (fun c => c ≠ '<')
        if cap.length = 0 then none
        else if startsWithCI ("</".data ++ tag ++ ">".data) (afterGt.drop cap.length)
        then some cap
        else none
    else none

/-- All offsets at which the (case-insensitive) pattern occurs,
in ascending order. -/
def offsetsCIAux (pat : Str) : Nat → Str → List Nat → List Nat
  | i, [], acc => (if startsWithCI pat [] then i :: acc else acc).reverse
  | i, c :: cs, acc =>
    offsetsCIAux pat (i + 1) cs (if startsWithCI pat (c :: cs) then i :: acc else acc)

def offsetsCI (pat : Str) (s : Str) : List Nat := offsetsCIAux pat 0 s []

/-- A venue CSS regex `<TAG[^>]*class="[^"]*CLS[^"]*"[^>]*>([^<]+)<\/TAG>/i`
tried at the current position.  The only backtracking choice is which
`class="` occurrence inside the maximal `[^>]*` span is used; the greedy
engine tries the rightmost one first. -/
def cssAt (tag cls : Str) (s : Str) : Option Str :=
  if startsWithCI ('<' :: tag) s then
    let r := s.drop (1 + tag.length)
    match findIdxSub? ['>'] r with
    | none => none
    | some gt =>
      ((offsetsCI "class=\"".data (r.take gt)).reverse).findSome?
        (fun j => cssTail tag cls r j)
  else none

/-- `afterDate.match(pattern)` for one venue CSS regex: leftmost position
first. -/
def jsMatchCss (tag cls : Str) (s : Str) : Option Str :=
  scanFirst (cssAt tag cls) s

/-- The four venue patterns in source order:
div/venue, div/location, span/venue, p/venue. -/
def venuePatternPairs : List (Str × Str) :=
  [("div".data, "venue".data), ("div".data, "location".data),
   ("span".data, "venue".data), ("p".data, "venue".data)]

/-- The CSS-pattern loop over `afterDate`: the first pattern whose trimmed
capture passes `isValidVenueName` wins.  (A capture failing the filter
falls through to the next pattern, as in the source.) -/
def venueFromCss (afterDate : Str) : Option Str :=
  venuePatternPairs.findSome? fun tc =>
    match jsMatchCss tc.1 tc.2 afterDate with
    | some cap =>
      let cand := jsTrim cap
      if isValidVenueName cand then some cand else none
    | none => none

/-- The `cleanText` pipeline over `afterDate`: svg blocks and path tags
removed, remaining tags to spaces, whitespace collapsed, trimmed. -/
def cleanTextOf (afterDate : Str) : Str :=
  jsTrim (jsReplaceAll wsMatch
    (jsReplaceAll (tagMatch " ".data)
      (jsReplaceAll pathMatch
        (jsReplaceAll svgMatch afterDate))))

/-- The fallback venue search: split `cleanText` on `|`, `<` or newline,
trim, keep chunks of length 3..99, take the first valid one. -/
def venueFallback (cleanText : Str) : Option Str :=
  (((splitChars (fun c => c = '|' || c = '<' || c = '\n') cleanText).map jsTrim).filter
      (fun c => 2 < c.length && c.length < 100)).find?
    isValidVenueName

example :
    jsMatchCss "div".data "venue".data
      "</div><div class=\"venue\">Zepp Tokyo</div>".data =
    some "Zepp Tokyo".data := by decide
example :
    jsMatchCss "div".data "venue".data "<div class=\"x\">a</div>".data = none := by
  decide

/-! ## Candidate assembly (`processEventId`, `parseTicketDiveHtml`) -/

/-- `replace(/^PAT\s*[『「]?/, "")`: an anchored, non-global replace
stripping a literal, a whitespace run and at most one opening bracket. -/
def stripAnchored (pat : Str) (s : Str) : Str :=
  if pat.isPrefixOf s then
    match (s.drop pat.length).dropWhile jsWs with
    | b :: rest => if b = '『' || b = '「' then rest else b :: rest
    | [] => []
  else s

/-- `replace(/[』」]$/, "")`: strips one trailing closing bracket. -/
def stripTrailBracket (s : Str) : Str :=
  match s.getLast? with
  | some c => if c = '』' || c = '」' then s.dropLast else s
  | none => s

/-- The cleanup applied to an accepted event name. -/
def cleanupEventName (en : Str) : Str :=
  jsTrim (stripTrailBracket
    (stripAnchored "受付中".data (stripAnchored "申込受付中".data en)))

structure ParsedEvent where
  eventName : String
  eventDate : String
  venueName : String
  eventUrl : String
deriving DecidableEq, Repr

/-- The context window around an anchor occurrence at index `i`:
1000 characters back, 7000 forward, clipped to the document. -/
def contextOf (cleaned : Str) (i : Nat) : Str :=
  jsSub cleaned (i - 1000) (min cleaned.length (i + 7000))

/-- The per-event-id body of the extraction loop.  `none` models the
`continue` statements (candidate discarded). -/
def processEventId (cleaned : Str) (eventId : Str) : Option ParsedEvent :=
  match findIdxSub? ("/event/".data ++ eventId) cleaned with
  | none => none
  | some eventIndex =>
    let context := contextOf cleaned eventIndex
    match findDate context with
    | none => none
    | some dm =>
      let eventDate := dm.2
      -- `context.indexOf(eventDate)`: the date was just matched inside
      -- `context`, so the search cannot fail (the source does not even
      -- test for -1 here); the `none` arm is unreachable.
      match findIdxSub? eventDate context with
      | none => none
      | some dateIndex =>
        let beforeDate := jsSub context (dateIndex - 1000) dateIndex
        let eventName? := pickEventName (cleanBeforeDateOf beforeDate)
        let afterDate := jsSub context (dateIndex + eventDate.length) (dateIndex + 1000)
        let venueName? :=
          (venueFromCss afterDate).orElse fun _ => venueFallback (cleanTextOf afterDate)
        match eventName?, venueName? with
        | some en, some vn =>
          let cleanedName := cleanupEventName en
          if isValidEventName cleanedName && isValidVenueName vn then
            some { eventName := String.mk cleanedName,
                   eventDate := String.mk eventDate,
                   venueName := String.mk vn,
                   eventUrl := String.mk ("https://ticketdive.com/event/".data ++ eventId) }
          else none
        | _, _ => none

/-- `parseTicketDiveHtml`: clean the document, collect the anchor ids, run
the loop body on each; discarded candidates contribute nothing. -/
def parseTicketDiveHtml (html : String) : List ParsedEvent :=
  let cleaned := cleanTicketDiveHtml html.data
  (extractEventIds cleaned).filterMap (processEventId cleaned)

def fixtureC1 : String :=
  "<html><body><a href=\"/event/abc123\"><h3>春の単独公演</h3><div>2026/3/15</div><div class=\"venue\">Zepp Tokyo</div></a></body></html>"

example :
    parseTicketDiveHtml fixtureC1 =
      [{ eventName := "春の単独公演", eventDate := "2026/3/15",
         venueName := "Zepp Tokyo",
         eventUrl := "https://ticketdive.com/event/abc123" }] := by decide

/-! ## The caller (`scrapeTicketDiveEvent`)

The surrounding async flow is embedded as a pure function of:
the HTTP response (status and body), the error reported by the
delete-query result and the error reported by the insert-query result
(the supabase client returns errors in the result object rather than
throwing).  Besides the outcome, the model returns the trace of
operations performed, in order: invoking the extractor, the delete and
the (at most one) insert. -/

structure HttpResponse where
  status : Nat
  body : String

/-- `response.ok`: status in the 2xx range. -/
def respOk (r : HttpResponse) : Bool := 200 ≤ r.status && r.status ≤ 299

structure ScrapeResult where
  success : Bool
  count : Nat
  error : Option String
deriving DecidableEq, Repr

inductive DbEffect where
  | parseHtml
  | deleteEvents (groupId : String)
  | insertEvent (groupId : String) (e : ParsedEvent)
deriving DecidableEq, Repr

def natOfDigits (s : Str) : Nat := s.foldl (fun n c => n * 10 + (c.toNat - 48)) 0

def daysInMonth (y m : Nat) : Nat :=
  if m = 2 then (if (y % 4 = 0 && y % 100 ≠ 0) || y % 400 = 0 then 29 else 28)
  else if m = 4 || m = 6 || m = 9 || m = 11 then 30 else 31

/-- Models `new Date(eventDate.replace(/\//g, "-")).getTime()`:
a `YYYY-M-D` string naming a real calendar date yields a finite
timestamp, anything else yields `NaN` (`none` here).  All candidates are
parsed in the same time zone at midnight, so the ordering of the
timestamps is exactly the lexicographic ordering of `(y, m, d)`, which is
what the comparator below uses. -/
def dateTriple (s : Str) : Option (Nat × Nat × Nat) :=
  match splitChars (fun c => c = '/') s with
  | [ys, ms, ds] =>
    if ys.length = 4 && ys.all Char.isDigit &&
       1 ≤ ms.length && ms.length ≤ 2 && ms.all Char.isDigit &&
       1 ≤ ds.length && ds.length ≤ 2 && ds.all Char.isDigit then
      let y := natOfDigits ys
      let m := natOfDigits ms
      let d := natOfDigits ds
      if 1 ≤ m && m ≤ 12 && 1 ≤ d && d ≤ daysInMonth y m then some (y, m, d)
      else none
    else none
  | _ => none

def tripleLt (a b : Nat × Nat × Nat) : Bool :=
  a.1 < b.1 || (a.1 = b.1 && (a.2.1 < b.2.1 || (a.2.1 = b.2.1 && a.2.2 < b.2.2)))

/-- `comparator(a, b) < 0` for the sort comparator
`aDate - bDate`: `a` strictly earlier than `b`.  Per the ECMAScript
`SortCompare` a `NaN` comparator value is treated as `+0`, so an invalid
date is never strictly before (or after) anything. -/
def dateLt (a b : ParsedEvent) : Bool :=
  match dateTriple a.eventDate.data, dateTriple b.eventDate.data with
  | some ta, some tb => tripleLt ta tb
  | _, _ => false

/-- `Array.prototype.sort` is stable; for this comparator the stable
ascending order is realised by insertion sort that inserts each element
after all elements not strictly later than it. -/
def insertByDate (x : ParsedEvent) : List ParsedEvent → List ParsedEvent
  | [] => [x]
  | y :: ys => if dateLt x y then x :: y :: ys else y :: insertByDate x ys

def sortByDate (l : List ParsedEvent) : List ParsedEvent :=
  l.foldl (fun acc x => insertByDate x acc) []

/-- `scrapeTicketDiveEvent`: fetch, status check, extract, delete-then-
conditionally-insert.  The source's `ticketdiveId` argument only
determines the fetched URL, which is abstracted into `resp` here.  The
result of the delete query is discarded by the source
(`await supabase.from("events").delete().eq(...)` without reading it),
hence `deleteError` is accepted but never used. -/
def scrapeTicketDiveEvent (groupId : String) (resp : HttpResponse)
    (deleteError insertError : Option String) : ScrapeResult × List DbEffect :=
  if !respOk resp then
    if resp.status = 404 then
      ({ success := false, count := 0, error := some "TicketDiveページが存在しません。" }, [])
    else
      ({ success := false, count := 0, error := some ("HTTP " ++ toString resp.status) }, [])
  else
    let _ := deleteError
    let events := parseTicketDiveHtml resp.body
    let baseEffects := [DbEffect.parseHtml, DbEffect.deleteEvents groupId]
    if events.length = 0 then
      ({ success := true, count := 0, error := none }, baseEffects)
    else
      match (sortByDate events).head? with
      | none => ({ success := true, count := 0, error := none }, baseEffects)
      | some nearest =>
        let effects := baseEffects ++ [DbEffect.insertEvent groupId nearest]
        match insertError with
        | some msg => ({ success := false, count := 0, error := some msg }, effects)
        | none => ({ success := true, count := 1, error := none }, effects)

/-! ## Fixtures -/

/-- 1000 characters of padding used to separate two event blocks by more
than the 1000-character backward window. -/
def fillerX : String := String.mk (List.replicate 1000 'x')

def fixtureC3 : String :=
  "<a href=\"/event/z9\">受付中『春の公演』</a><div>2026/5/10</div><div class=\"venue\">Zepp Nagoya</div>"

def fixtureC6 : String :=
  "<a href=\"/event/aaa1\">春の定期公演</a><div>2026/3/15</div><div class=\"venue\">Zepp Sapporo</div><div "
    ++ fillerX ++
  "><a href=\"/event/bbb2\">夏の追加公演</a><div>2026/2/01</div><div class=\"venue\">Osaka Hall</div>"

def fixtureC10 : String :=
  "<a href=\"/event/dup7\">冬の特別公演</a><div>2026/4/02</div><div class=\"venue\">Zepp Haneda</div><p>mm</p><a href=\"/event/dup7\">zz</a>"

def eventC1 : ParsedEvent :=
  { eventName := "春の単独公演", eventDate := "2026/3/15",
    venueName := "Zepp Tokyo", eventUrl := "https://ticketdive.com/event/abc123" }

def eventC3 : ParsedEvent :=
  { eventName := "春の公演", eventDate := "2026/5/10",
    venueName := "Zepp Nagoya", eventUrl := "https://ticketdive.com/event/z9" }

def eventC6March : ParsedEvent :=
  { eventName := "春の定期公演", eventDate := "2026/3/15",
    venueName := "Zepp Sapporo", eventUrl := "https://ticketdive.com/event/aaa1" }

def eventC6Feb : ParsedEvent :=
  { eventName := "夏の追加公演", eventDate := "2026/2/01",
    venueName := "Osaka Hall", eventUrl := "https://ticketdive.com/event/bbb2" }

def eventC10 : ParsedEvent :=
  { eventName := "冬の特別公演", eventDate := "2026/4/02",
    venueName := "Zepp Haneda", eventUrl := "https://ticketdive.com/event/dup7" }

/-! ## Basic lemmas -/

theorem length_dropWhile_le (p : Char → Bool) (l : Str) :
    (l.dropWhile p).length ≤ l.length := by
  induction l with
  | nil => simp
  | cons c cs ih =>
    simp only [List.dropWhile]
    split
    · exact Nat.le_succ_of_le ih
    · simp

theorem jsTrim_length_le (s : Str) : (jsTrim s).length ≤ s.length := by
  unfold jsTrim
  calc ((s.dropWhile jsWs).reverse.dropWhile jsWs).reverse.length
      = ((s.dropWhile jsWs).reverse.dropWhile jsWs).length := by simp
    _ ≤ (s.dropWhile jsWs).reverse.length := length_dropWhile_le _ _
    _ = (s.dropWhile jsWs).length := by simp
    _ ≤ s.length := length_dropWhile_le _ _

theorem stripAnchored_length_le (pat s : Str) :
    (stripAnchored pat s).length ≤ s.length := by
  unfold stripAnchored
  split
  · have hd : ((s.drop pat.length).dropWhile jsWs).length ≤ s.length := by
      calc ((s.drop pat.length).dropWhile jsWs).length
          ≤ (s.drop pat.length).length := length_dropWhile_le _ _
        _ ≤ s.length := by simp [List.length_drop]
    split
    next b rest h =>
      rw [h] at hd
      split
      · simp at hd; omega
      · exact hd
    next => simp
  · exact Nat.le_refl _

theorem stripTrailBracket_length_le (s : Str) :
    (stripTrailBracket s).length ≤ s.length := by
  unfold stripTrailBracket
  split
  · split
    · simp [List.length_dropLast]
    · exact Nat.le_refl _
  · exact Nat.le_refl _

theorem cleanupEventName_length_le (en : Str) :
    (cleanupEventName en).length ≤ en.length := by
  unfold cleanupEventName
  calc (jsTrim (stripTrailBracket (stripAnchored "受付中".data (stripAnchored "申込受付中".data en)))).length
      ≤ (stripTrailBracket (stripAnchored "受付中".data (stripAnchored "申込受付中".data en))).length :=
        jsTrim_length_le _
    _ ≤ (stripAnchored "受付中".data (stripAnchored "申込受付中".data en)).length :=
        stripTrailBracket_length_le _
    _ ≤ (stripAnchored "申込受付中".data en).length := stripAnchored_length_le _ _
    _ ≤ en.length := stripAnchored_length_le _ _

theorem isValidEventName_bounds {n : Str} (h : isValidEventName n = true) :
    3 ≤ n.length ∧ n.length ≤ 200 := by
  unfold isValidEventName at h
  split at h
  · exact absurd h (by simp)
  · next hc =>
    simp only [Bool.or_eq_true, decide_eq_true_eq, not_or] at hc
    omega

theorem isValidVenueName_bounds {n : Str} (h : isValidVenueName n = true) :
    2 ≤ n.length ∧ n.length ≤ 200 := by
  unfold isValidVenueName at h
  split at h
  · exact absurd h (by simp)
  · next hc =>
    simp only [Bool.or_eq_true, decide_eq_true_eq, not_or] at hc
    omega

theorem pickEventName_bounds {s en : Str} (h : pickEventName s = some en) :
    5 ≤ en.length ∧ en.length ≤ 100 ∧ isValidEventName en = true := by
  unfold pickEventName at h
  obtain ⟨line, -, hfind⟩ := List.exists_of_findSome?_eq_some h
  have hp := List.find?_some hfind
  simp only [Bool.and_eq_true, decide_eq_true_eq] at hp
  exact ⟨hp.1.1, hp.1.2, hp.2⟩

theorem processEventId_spec {cleaned id : Str} {e : ParsedEvent}
    (h : processEventId cleaned id = some e) :
    isValidEventName e.eventName.data = true ∧
    isValidVenueName e.venueName.data = true ∧
    e.eventUrl.data = "https://ticketdive.com/event/".data ++ id ∧
    ∃ en, 5 ≤ en.length ∧ en.length ≤ 100 ∧ e.eventName.data = cleanupEventName en := by
  unfold processEventId at h
  split at h
  · exact absurd h (by simp)
  next eventIndex _ =>
  dsimp only at h
  split at h
  · exact absurd h (by simp)
  next dm _ =>
  split at h
  · exact absurd h (by simp)
  next dateIndex _ =>
  split at h
  case _ en vn hen hvn =>
    split at h
    next hguard =>
      simp only [Bool.and_eq_true] at hguard
      obtain ⟨hname, hvenue⟩ := hguard
      obtain ⟨h5, h100, -⟩ := pickEventName_bounds hen
      cases h
      refine ⟨hname, hvenue, rfl, en, h5, h100, rfl⟩
    · exact absurd h (by simp)
  case _ o1 o2 hno =>
    exact absurd h (by simp)

theorem startsWithCI_of_isPrefixOf :
    ∀ {pat s : Str}, (∀ c ∈ pat, c.toLower = c) → pat.isPrefixOf s = true →
      startsWithCI pat s = true := by
  intro pat
  induction pat with
  | nil => intro s _ _; rfl
  | cons p ps ih =>
    intro s hl hp
    cases s with
    | nil => simp [List.isPrefixOf] at hp
    | cons c cs =>
      simp only [List.isPrefixOf, Bool.and_eq_true, beq_iff_eq] at hp
      simp only [startsWithCI, Bool.and_eq_true, decide_eq_true_eq]
      refine ⟨?_, ih (fun x hx => hl x (List.mem_cons_of_mem _ hx)) hp.2⟩
      rw [← hp.1]
      exact (hl p (List.mem_cons_self _ _)).symm

theorem isPrefixOf_append_left :
    ∀ {p q s : Str}, (p ++ q).isPrefixOf s = true → p.isPrefixOf s = true := by
  intro p
  induction p with
  | nil => intro q s _; cases s <;> simp [List.isPrefixOf]
  | cons a as ih =>
    intro q s h
    cases s with
    | nil => simp [List.isPrefixOf] at h
    | cons b bs =>
      simp only [List.cons_append, List.isPrefixOf, Bool.and_eq_true] at h ⊢
      exact ⟨h.1, ih h.2⟩

theorem containsCI_of_containsSub {p q : Str} (hl : ∀ c ∈ p, c.toLower = c) :
    ∀ {s : Str}, containsSub (p ++ q) s = true → containsCI p s = true := by
  intro s
  induction s with
  | nil =>
    intro h
    unfold containsSub at h
    cases p with
    | nil => rfl
    | cons a as => simp [List.isPrefixOf] at h
  | cons c cs ih =>
    intro h
    unfold containsSub at h
    unfold containsCI
    cases hor : (p ++ q).isPrefixOf (c :: cs) with
    | true =>
      have hs := startsWithCI_of_isPrefixOf hl (isPrefixOf_append_left hor)
      simp [hs]
    | false =>
      rw [hor] at h
      simp only [Bool.false_or] at h
      simp [ih h]

theorem isValidEventName_no_padding {n : Str} (h : isValidEventName n = true) :
    containsCI "padding".data n = false := by
  cases hb : containsCI "padding".data n with
  | false => rfl
  | true =>
    exfalso
    unfold isValidEventName at h
    split at h
    · exact absurd h (by simp)
    · rw [hb] at h
      simp at h

theorem isValidEventName_ne_uketsuke {n : Str} (h : isValidEventName n = true) :
    n ≠ "受付中".data := by
  intro hn
  rw [hn] at h
  exact absurd h (by decide)

theorem parse_mem {html : String} {e : ParsedEvent} (he : e ∈ parseTicketDiveHtml html) :
    ∃ id, id ∈ extractEventIds (cleanTicketDiveHtml html.data) ∧
      processEventId (cleanTicketDiveHtml html.data) id = some e := by
  unfold parseTicketDiveHtml at he
  exact List.mem_filterMap.mp he

theorem processEventId_url_inj {cleaned id1 id2 : Str} {e : ParsedEvent}
    (h1 : processEventId cleaned id1 = some e)
    (h2 : processEventId cleaned id2 = some e) : id1 = id2 := by
  have u1 := (processEventId_spec h1).2.2.1
  have u2 := (processEventId_spec h2).2.2.1
  exact List.append_cancel_left (u1 ▸ u2)

theorem string_length_data (s : String) : s.length = s.data.length := rfl

/-! ## Claim theorems -/

/-- C1: on the fixed fixture (one well-formed event block, name
"春の単独公演", date "2026/3/15", venue "Zepp Tokyo", anchor
`/event/abc123`) the extractor returns exactly the one expected candidate,
whose URL is `https://ticketdive.com/event/abc123`; and in general every
emitted candidate's URL is built by template from an extracted anchor id,
never read from the page content. -/
theorem claim_C1 :
    parseTicketDiveHtml fixtureC1 = [eventC1] ∧
    ∀ (html : String) (e : ParsedEvent), e ∈ parseTicketDiveHtml html →
      ∃ id, id ∈ extractEventIds (cleanTicketDiveHtml html.data) ∧
        e.eventUrl.data = "https://ticketdive.com/event/".data ++ id := by
  constructor
  · decide
  · intro html e he
    obtain ⟨id, hid, hp⟩ := parse_mem he
    exact ⟨id, hid, (processEventId_spec hp).2.2.1⟩

theorem claim_C1_witness :
    ∃ id, id ∈ extractEventIds (cleanTicketDiveHtml fixtureC1.data) ∧
      eventC1.eventUrl.data = "https://ticketdive.com/event/".data ++ id := by
  apply claim_C1.2 fixtureC1 eventC1
  rw [claim_C1.1]
  exact List.mem_singleton.mpr rfl

/-- C3 (counterexample): on `fixtureC3` the extractor emits a candidate
whose cleaned event name "春の公演" has length 4, refuting the claimed
5..100 lower bound for the name after cleanup. -/
theorem claim_C3_counterexample :
    parseTicketDiveHtml fixtureC3 = [eventC3] ∧ eventC3.eventName.length = 4 :=
  ⟨by decide, by decide⟩

/-- C3 (amended): every emitted candidate has an event name of 3..100
characters after the post-extraction cleanup (the accepted chunk has
5..100 characters, cleanup only shortens, and re-validation enforces the
lower bound 3) and a venue name of 2..200 characters. -/
theorem claim_C3_amended :
    ∀ (html : String) (e : ParsedEvent), e ∈ parseTicketDiveHtml html →
      3 ≤ e.eventName.length ∧ e.eventName.length ≤ 100 ∧
      2 ≤ e.venueName.length ∧ e.venueName.length ≤ 200 := by
  intro html e he
  obtain ⟨id, -, hp⟩ := parse_mem he
  obtain ⟨hname, hvenue, -, en, -, h100, hdata⟩ := processEventId_spec hp
  have hb := isValidEventName_bounds hname
  have vb := isValidVenueName_bounds hvenue
  have hclean : e.eventName.data.length ≤ en.length := by
    rw [hdata]; exact cleanupEventName_length_le en
  rw [string_length_data, string_length_data]
  exact ⟨hb.1, Nat.le_trans hclean h100, vb.1, vb.2⟩

theorem claim_C3_amended_witness :
    3 ≤ eventC3.eventName.length ∧ eventC3.eventName.length ≤ 100 ∧
    2 ≤ eventC3.venueName.length ∧ eventC3.venueName.length ≤ 200 :=
  claim_C3_amended fixtureC3 eventC3 (by decide)

/-- C7: every emitted candidate has a non-empty event name and venue name
that still pass their validity filters (idempotence of acceptance), and in
particular the event name is never "受付中" and never contains
"padding:". -/
theorem claim_C7 :
    ∀ (html : String) (e : ParsedEvent), e ∈ parseTicketDiveHtml html →
      isValidEventName e.eventName.data = true ∧
      isValidVenueName e.venueName.data = true ∧
      e.eventName ≠ "" ∧ e.venueName ≠ "" ∧
      e.eventName ≠ "受付中" ∧
      containsSub "padding:".data e.eventName.data = false := by
  intro html e he
  obtain ⟨id, -, hp⟩ := parse_mem he
  obtain ⟨hname, hvenue, -, -⟩ := processEventId_spec hp
  refine ⟨hname, hvenue, ?_, ?_, ?_, ?_⟩
  · intro h
    have h3 := (isValidEventName_bounds hname).1
    rw [congrArg String.data h] at h3
    simp at h3
  · intro h
    have h2 := (isValidVenueName_bounds hvenue).1
    rw [congrArg String.data h] at h2
    simp at h2
  · intro h
    exact isValidEventName_ne_uketsuke hname (congrArg String.data h)
  · cases hb : containsSub "padding:".data e.eventName.data with
    | false => rfl
    | true =>
      have hsplit : "padding:".data = "padding".data ++ ":".data := by decide
      have hci : containsCI "padding".data e.eventName.data = true :=
        containsCI_of_containsSub (by decide) (hsplit ▸ hb)
      rw [isValidEventName_no_padding hname] at hci
      exact absurd hci (by simp)

theorem claim_C7_witness :
    isValidEventName eventC1.eventName.data = true ∧
    isValidVenueName eventC1.venueName.data = true ∧
    eventC1.eventName ≠ "" ∧ eventC1.venueName ≠ "" ∧
    eventC1.eventName ≠ "受付中" ∧
    containsSub "padding:".data eventC1.eventName.data = false :=
  claim_C7 fixtureC1 eventC1 (by decide)

/-! ## C8: no anchors / no date in window -/

/-- The date search that `processEventId` performs for an id, as a
decidable predicate: either the id's literal `/event/{id}` substring is
absent, or the context window around its first occurrence contains no
match of the date pattern. -/
def noDateInWindow (cleaned id : Str) : Bool :=
  match findIdxSub? ("/event/".data ++ id) cleaned with
  | some i => findDate (contextOf cleaned i) = none
  | none => true

theorem processEventId_none_of_noDate {cleaned id : Str}
    (h : noDateInWindow cleaned id = true) : processEventId cleaned id = none := by
  unfold noDateInWindow at h
  unfold processEventId
  cases hf : findIdxSub? ("/event/".data ++ id) cleaned with
  | none => simp
  | some i =>
    rw [hf] at h
    simp only [decide_eq_true_eq] at h
    simp [h]

/-- C8: the extractor never signals an error — it returns a (possibly
empty) list for every input.  If the cleaned document contains no
`/event/` anchor the result is empty, and a candidate id whose context
window (1000 characters back, 7000 forward from the first occurrence of
`/event/{id}`, clipped to the document) contains no `\d{4}/\d{1,2}/\d{1,2}`
match contributes no candidate to the output. -/
theorem claim_C8 :
    (∀ html : String, extractEventIds (cleanTicketDiveHtml html.data) = [] →
      parseTicketDiveHtml html = []) ∧
    (∀ (html : String) (id : Str),
      noDateInWindow (cleanTicketDiveHtml html.data) id = true →
      ∀ e ∈ parseTicketDiveHtml html,
        e.eventUrl.data ≠ "https://ticketdive.com/event/".data ++ id) := by
  constructor
  · intro html hids
    unfold parseTicketDiveHtml
    dsimp only
    rw [hids]
    rfl
  · intro html id hnd e he heq
    obtain ⟨id', -, hp⟩ := parse_mem he
    have hurl := (processEventId_spec hp).2.2.1
    have hids : id' = id := List.append_cancel_left (hurl ▸ heq)
    rw [hids] at hp
    rw [processEventId_none_of_noDate hnd] at hp
    exact absurd hp (by simp)

def htmlNoAnchor : String := "<p>hello</p>"

def htmlNoDate : String := "<a href=\"/event/xyz\">hello there</a>"

theorem claim_C8_witness :
    parseTicketDiveHtml htmlNoAnchor = [] ∧
    ∀ e ∈ parseTicketDiveHtml htmlNoDate,
      e.eventUrl.data ≠ "https://ticketdive.com/event/".data ++ "xyz".data :=
  ⟨claim_C8.1 htmlNoAnchor (by decide), claim_C8.2 htmlNoDate "xyz".data (by decide)⟩

/-! ## C10: duplicated anchor ids are not deduplicated -/

theorem countP_filterMap_eq {α β : Type} [DecidableEq α] [DecidableEq β]
    (f : α → Option β) (l : List α) (a : α) (b : β)
    (hb : f a = some b) (hinj : ∀ x, f x = some b → x = a) :
    (l.filterMap f).countP (fun y => decide (y = b)) =
      l.countP (fun x => decide (x = a)) := by
  induction l with
  | nil => rfl
  | cons x xs ih =>
    cases hfx : f x with
    | none =>
      rw [List.filterMap_cons_none hfx, List.countP_cons]
      have hxa : x ≠ a := fun h => by rw [h, hb] at hfx; cases hfx
      simp [hxa, ih]
    | some y =>
      rw [List.filterMap_cons_some hfx, List.countP_cons, List.countP_cons]
      by_cases hy : y = b
      · subst hy
        have hxa : x = a := hinj x hfx
        simp [hxa, ih]
      · have hxa : x ≠ a := by
          intro h
          rw [h, hb] at hfx
          exact hy (Option.some.inj hfx).symm
        simp [hy, hxa, ih]

/-- C10: an id accepted by the loop body contributes one identical copy of
its candidate for every anchor occurrence of the id collected by the
`href` scan (the context is always taken from the first occurrence of
`/event/{id}`, so all copies are equal): the multiplicity of the candidate
in the output equals the multiplicity of the id in the extracted id list —
there is no deduplication. -/
theorem claim_C10 :
    ∀ (html : String) (id : Str) (e : ParsedEvent),
      processEventId (cleanTicketDiveHtml html.data) id = some e →
      (parseTicketDiveHtml html).countP (fun y => decide (y = e)) =
        (extractEventIds (cleanTicketDiveHtml html.data)).countP
          (fun x => decide (x = id)) := by
  intro html id e hp
  unfold parseTicketDiveHtml
  exact countP_filterMap_eq _ _ id e hp (fun x hx => processEventId_url_inj hx hp)

theorem claim_C10_witness :
    ((parseTicketDiveHtml fixtureC10).countP (fun y => decide (y = eventC10)) =
      (extractEventIds (cleanTicketDiveHtml fixtureC10.data)).countP
        (fun x => decide (x = "dup7".data))) ∧
    (parseTicketDiveHtml fixtureC10).countP (fun y => decide (y = eventC10)) = 2 :=
  ⟨claim_C10 fixtureC10 "dup7".data eventC10 (by decide), by decide⟩

/-! ## C2: the venue-extraction step, specification side -/

/-- The venue-extraction step as the specification words it: a window of
at most 1000 characters immediately after the date match; first the four
ordered CSS-class regexes (`div` with class containing `venue`, `div`
with `location`, `span` with `venue`, `p` with `venue`, case-insensitive)
whose trimmed capture must pass the venue filter; if none yields a valid
capture, the fallback strips svg/path tags and all remaining tags,
collapses whitespace, splits on `|`, `<` or newline, and accepts the
first chunk of length 3..99 passing the venue filter. -/
def venueFromDateSpec (context : Str) (dateIndex dlen : Nat) : Option Str :=
  let window := jsSub context (dateIndex + dlen) (dateIndex + 1000)
  let cssResult :=
    [("div".data, "venue".data), ("div".data, "location".data),
     ("span".data, "venue".data), ("p".data, "venue".data)].findSome? fun tc =>
      match jsMatchCss tc.1 tc.2 window with
      | some cap =>
        let cand := jsTrim cap
        if isValidVenueName cand then some cand else none
      | none => none
  match cssResult with
  | some v => some v
  | none =>
    (((splitChars (fun c => c = '|' || c = '<' || c = '\n') (cleanTextOf window)).map
        jsTrim).filter (fun c => 3 ≤ c.length && c.length ≤ 99)).find? isValidVenueName

set_option maxHeartbeats 2000000 in
/-- C2: the venue-search window holds at most 1000 characters after the
date match, and the code's venue extraction (the CSS-pattern loop with
the positional fallback, exactly as run by `processEventId` on
`afterDate`) computes the specification's description of it. -/
theorem claim_C2 :
    ∀ (context : Str) (dateIndex dlen : Nat),
      (jsSub context (dateIndex + dlen) (dateIndex + 1000)).length ≤ 1000 ∧
      ((venueFromCss (jsSub context (dateIndex + dlen) (dateIndex + 1000))).orElse
          (fun _ =>
            venueFallback (cleanTextOf (jsSub context (dateIndex + dlen) (dateIndex + 1000))))) =
        venueFromDateSpec context dateIndex dlen := by
  intro context dateIndex dlen
  constructor
  · simp only [jsSub, List.length_drop, List.length_take]
    omega
  · unfold venueFromDateSpec venueFromCss venuePatternPairs venueFallback
    dsimp only
    cases hc :
        [("div".data, "venue".data), ("div".data, "location".data),
         ("span".data, "venue".data), ("p".data, "venue".data)].findSome?
          (fun tc =>
            match jsMatchCss tc.1 tc.2 (jsSub context (dateIndex + dlen) (dateIndex + 1000)) with
            | some cap =>
              let cand := jsTrim cap
              if isValidVenueName cand then some cand else none
            | none => none) with
    | some v => rfl
    | none =>
      show (List.find? isValidVenueName
          (List.filter (fun c => decide (2 < List.length c) && decide (List.length c < 100))
            (List.map jsTrim
              (splitChars (fun c => decide (c = '|') || decide (c = '<') || decide (c = '\n'))
                (cleanTextOf (jsSub context (dateIndex + dlen) (dateIndex + 1000))))))) =
        (List.find? isValidVenueName
          (List.filter (fun c => decide (3 ≤ List.length c) && decide (List.length c ≤ 99))
            (List.map jsTrim
              (splitChars (fun c => decide (c = '|') || decide (c = '<') || decide (c = '\n'))
                (cleanTextOf (jsSub context (dateIndex + dlen) (dateIndex + 1000)))))))
      congr 1
      apply List.filter_congr
      intro a _
      rw [show decide (2 < List.length a) = decide (3 ≤ List.length a) from by
            rw [decide_eq_decide]; omega,
          show decide (List.length a < 100) = decide (List.length a ≤ 99) from by
            rw [decide_eq_decide]; omega]

/-! ## C5 / C9 / C4: the fetch-and-persist flow -/

/-- C5: a non-2xx response short-circuits: no extractor invocation and no
persistence operation (empty effect trace); a 404 yields the literal
Japanese "page does not exist" outcome and any other non-2xx status
yields the generic `HTTP {status}` outcome. -/
theorem claim_C5 :
    ∀ (g : String) (resp : HttpResponse) (dErr iErr : Option String),
      respOk resp = false →
      (scrapeTicketDiveEvent g resp dErr iErr).2 = [] ∧
      (resp.status = 404 →
        (scrapeTicketDiveEvent g resp dErr iErr).1 =
          { success := false, count := 0, error := some "TicketDiveページが存在しません。" }) ∧
      (resp.status ≠ 404 →
        (scrapeTicketDiveEvent g resp dErr iErr).1 =
          { success := false, count := 0, error := some ("HTTP " ++ toString resp.status) }) := by
  intro g resp dErr iErr hok
  unfold scrapeTicketDiveEvent
  rw [hok]
  by_cases h4 : resp.status = 404
  · simp [h4]
  · simp [h4]

theorem claim_C5_witness :
    (scrapeTicketDiveEvent "g" ⟨404, ""⟩ none none).2 = [] ∧
    (scrapeTicketDiveEvent "g" ⟨404, ""⟩ none none).1 =
      { success := false, count := 0, error := some "TicketDiveページが存在しません。" } ∧
    (scrapeTicketDiveEvent "g" ⟨500, ""⟩ none none).1 =
      { success := false, count := 0, error := some ("HTTP " ++ toString (500 : Nat)) } := by
  have h404 := claim_C5 "g" ⟨404, ""⟩ none none (by decide)
  have h500 := claim_C5 "g" ⟨500, ""⟩ none none (by decide)
  exact ⟨h404.1, h404.2.1 rfl, h500.2.2 (by decide)⟩

/-- C9: a 2xx response whose body yields zero candidates is reported as a
successful empty result, not an error. -/
theorem claim_C9 :
    ∀ (g : String) (resp : HttpResponse) (dErr iErr : Option String),
      respOk resp = true → parseTicketDiveHtml resp.body = [] →
      (scrapeTicketDiveEvent g resp dErr iErr).1 =
        { success := true, count := 0, error := none } := by
  intro g resp dErr iErr hok hparse
  unfold scrapeTicketDiveEvent
  rw [hok]
  dsimp only
  rw [hparse]
  simp

theorem claim_C9_witness :
    (scrapeTicketDiveEvent "g" ⟨200, ""⟩ none none).1 =
      { success := true, count := 0, error := none } :=
  claim_C9 "g" ⟨200, ""⟩ none none (by decide) (by decide)

/-! ## Sorting lemmas for the nearest-event selection -/

theorem tripleLt_irrefl (a : Nat × Nat × Nat) : tripleLt a a = false := by
  simp [tripleLt]

theorem tripleLt_asymm {a b : Nat × Nat × Nat} (h : tripleLt a b = true) :
    tripleLt b a = false := by
  simp only [tripleLt, Bool.or_eq_true, Bool.and_eq_true, decide_eq_true_eq,
    Bool.or_eq_false_iff, Bool.and_eq_false_iff, decide_eq_false_iff_not] at h ⊢
  omega

theorem tripleLt_trans {a b c : Nat × Nat × Nat} (h1 : tripleLt a b = true)
    (h2 : tripleLt b c = true) : tripleLt a c = true := by
  simp only [tripleLt, Bool.or_eq_true, Bool.and_eq_true, decide_eq_true_eq] at h1 h2 ⊢
  omega

theorem dateLt_irrefl (a : ParsedEvent) : dateLt a a = false := by
  unfold dateLt
  cases h : dateTriple a.eventDate.data with
  | none => rfl
  | some t => exact tripleLt_irrefl t

theorem dateLt_asymm {a b : ParsedEvent} (h : dateLt a b = true) :
    dateLt b a = false := by
  unfold dateLt at h ⊢
  cases ha : dateTriple a.eventDate.data with
  | none => simp_all
  | some ta =>
    rw [ha] at h
    cases hb : dateTriple b.eventDate.data with
    | none => simp_all
    | some tb =>
      rw [hb] at h
      dsimp only at h ⊢
      exact tripleLt_asymm h

theorem dateLt_trans {a b c : ParsedEvent} (h1 : dateLt a b = true)
    (h2 : dateLt b c = true) : dateLt a c = true := by
  unfold dateLt at h1 h2 ⊢
  cases ha : dateTriple a.eventDate.data with
  | none => simp_all
  | some ta =>
    rw [ha] at h1
    cases hb : dateTriple b.eventDate.data with
    | none => simp_all
    | some tb =>
      rw [hb] at h1 h2
      cases hc : dateTriple c.eventDate.data with
      | none => simp_all
      | some tc =>
        rw [hc] at h2
        dsimp only at h1 h2 ⊢
        exact tripleLt_trans h1 h2

theorem mem_insertByDate {x y : ParsedEvent} :
    ∀ {l : List ParsedEvent}, x ∈ insertByDate y l ↔ x = y ∨ x ∈ l := by
  intro l
  induction l with
  | nil => simp [insertByDate]
  | cons h t ih =>
    unfold insertByDate
    split
    · simp [List.mem_cons]
    · simp only [List.mem_cons, ih]
      tauto

theorem length_insertByDate (y : ParsedEvent) :
    ∀ l : List ParsedEvent, (insertByDate y l).length = l.length + 1 := by
  intro l
  induction l with
  | nil => rfl
  | cons h t ih =>
    unfold insertByDate
    split
    · simp
    · simp [ih]

theorem length_sortByDate (l : List ParsedEvent) :
    (sortByDate l).length = l.length := by
  have key : ∀ (m acc : List ParsedEvent),
      (List.foldl (fun a y => insertByDate y a) acc m).length = acc.length + m.length := by
    intro m
    induction m with
    | nil => simp
    | cons h t ih =>
      intro acc
      rw [List.foldl_cons, ih, length_insertByDate]
      simp [List.length_cons]
      omega
  unfold sortByDate
  rw [key]
  simp

theorem headMin_insertByDate {y : ParsedEvent} :
    ∀ {l : List ParsedEvent},
      (∀ x ∈ l, ∀ r, l.head? = some r → dateLt x r = false) →
      ∀ x ∈ insertByDate y l, ∀ r, (insertByDate y l).head? = some r →
        dateLt x r = false := by
  intro l
  cases l with
  | nil =>
    intro _ x hx r hr
    simp [insertByDate] at hx hr
    rw [hx, ← hr]
    exact dateLt_irrefl y
  | cons h t =>
    intro hmin x hx r hr
    unfold insertByDate at hx hr
    by_cases hlt : dateLt y h = true
    · rw [if_pos hlt] at hx hr
      simp only [List.head?_cons, Option.some.injEq] at hr
      rw [← hr]
      rcases List.mem_cons.mp hx with rfl | hx2
      · exact dateLt_irrefl x
      · rcases List.mem_cons.mp hx2 with rfl | hx3
        · exact dateLt_asymm hlt
        · cases hxy : dateLt x y with
          | false => rfl
          | true =>
            have hxh := dateLt_trans hxy hlt
            rw [hmin x (List.mem_cons_of_mem _ hx3) h rfl] at hxh
            exact absurd hxh (by simp)
    · rw [if_neg hlt] at hx hr
      simp only [List.head?_cons, Option.some.injEq] at hr
      rw [← hr]
      rcases List.mem_cons.mp hx with rfl | hx2
      · exact dateLt_irrefl x
      · rcases mem_insertByDate.mp hx2 with rfl | hx3
        · exact Bool.not_eq_true _ ▸ (Bool.eq_false_iff.mpr hlt)
        · exact hmin x (List.mem_cons_of_mem _ hx3) h rfl

theorem mem_foldl_insertByDate :
    ∀ {l acc : List ParsedEvent} {x},
      x ∈ List.foldl (fun a y => insertByDate y a) acc l ↔ x ∈ acc ∨ x ∈ l := by
  intro l
  induction l with
  | nil => intro acc x; simp
  | cons h t ih =>
    intro acc x
    rw [List.foldl_cons, ih, mem_insertByDate]
    simp only [List.mem_cons]
    tauto

theorem sortByDate_head_min :
    ∀ {l : List ParsedEvent} {r : ParsedEvent} {rest : List ParsedEvent},
      sortByDate l = r :: rest → r ∈ l ∧ ∀ x ∈ l, dateLt x r = false := by
  have key : ∀ (l acc : List ParsedEvent),
      (∀ x ∈ acc, ∀ r, acc.head? = some r → dateLt x r = false) →
      ∀ x ∈ List.foldl (fun a y => insertByDate y a) acc l, ∀ r,
        (List.foldl (fun a y => insertByDate y a) acc l).head? = some r →
        dateLt x r = false := by
    intro l
    induction l with
    | nil => intro acc h; exact h
    | cons hd tl ih =>
      intro acc h
      rw [List.foldl_cons]
      exact ih _ (headMin_insertByDate h)
  intro l r rest hsort
  constructor
  · have hmem : r ∈ sortByDate l := by rw [hsort]; exact List.mem_cons_self _ _
    unfold sortByDate at hmem
    rcases mem_foldl_insertByDate.mp hmem with hc | hc
    · exact absurd hc (by simp)
    · exact hc
  · intro x hx
    have hx' : x ∈ sortByDate l := by
      unfold sortByDate
      exact mem_foldl_insertByDate.mpr (Or.inr hx)
    have hh : (sortByDate l).head? = some r := by rw [hsort]; rfl
    exact key l [] (by simp) x hx' r hh

/-! ## C4: persistence errors -/

/-- C4 (counterexample): a persistence error reported by the delete step
does not downgrade the outcome — the delete result is discarded, so with a
failing delete and a succeeding insert the operation still reports
`success: true`. -/
theorem claim_C4_counterexample :
    (scrapeTicketDiveEvent "g" ⟨200, fixtureC1⟩ (some "delete failed") none).1 =
      { success := true, count := 1, error := none } := by decide

/-- C4 (amended): an error from the single insert downgrades the outcome
to failure carrying the underlying message even though the fetch
succeeded; the delete-step result, however, is discarded, so the outcome
never depends on the delete error. -/
theorem claim_C4_amended :
    ∀ (g : String) (resp : HttpResponse) (dErr iErr : Option String) (msg : String),
      (respOk resp = true → parseTicketDiveHtml resp.body ≠ [] → iErr = some msg →
        (scrapeTicketDiveEvent g resp dErr iErr).1 =
          { success := false, count := 0, error := some msg }) ∧
      (∀ dErr2, scrapeTicketDiveEvent g resp dErr iErr =
          scrapeTicketDiveEvent g resp dErr2 iErr) := by
  intro g resp dErr iErr msg
  constructor
  · intro hok hne hins
    unfold scrapeTicketDiveEvent
    rw [hok]
    dsimp only
    have hlen : ¬(parseTicketDiveHtml resp.body).length = 0 := by
      simpa [List.length_eq_zero] using hne
    rw [if_neg hlen]
    cases hs : (sortByDate (parseTicketDiveHtml resp.body)).head? with
    | none =>
      exfalso
      rw [List.head?_eq_none_iff] at hs
      have := length_sortByDate (parseTicketDiveHtml resp.body)
      rw [hs] at this
      exact hlen (by simpa using this.symm)
    | some nearest =>
      rw [hins]
      rfl
  · intro dErr2
    unfold scrapeTicketDiveEvent
    rfl

theorem claim_C4_amended_witness :
    (scrapeTicketDiveEvent "g" ⟨200, fixtureC1⟩ none (some "insert failed")).1 =
      { success := false, count := 0, error := some "insert failed" } ∧
    scrapeTicketDiveEvent "g" ⟨200, ""⟩ (some "boom") none =
      scrapeTicketDiveEvent "g" ⟨200, ""⟩ none none :=
  ⟨(claim_C4_amended "g" ⟨200, fixtureC1⟩ none (some "insert failed") "insert failed").1
      (by decide) (by decide) rfl,
   (claim_C4_amended "g" ⟨200, ""⟩ (some "boom") none "x").2 none⟩

/-! ## C6: nearest-event selection -/

def insertedRows (effs : List DbEffect) : List ParsedEvent :=
  effs.filterMap fun eff =>
    match eff with
    | DbEffect.insertEvent _ e => some e
    | _ => none

/-- C6: after extraction the candidates are ordered by their dates parsed
as calendar dates and only the earliest one is inserted: at most one row
is ever inserted, any inserted row is an extracted candidate with no
strictly earlier candidate, and on the two-candidate fixture (dates
2026/3/15 and 2026/2/01) exactly the 2026/2/01 candidate is inserted. -/
theorem claim_C6 :
    (∀ (g : String) (resp : HttpResponse) (dErr iErr : Option String),
      (insertedRows (scrapeTicketDiveEvent g resp dErr iErr).2).length ≤ 1) ∧
    (∀ (g : String) (resp : HttpResponse) (dErr iErr : Option String) (r : ParsedEvent),
      DbEffect.insertEvent g r ∈ (scrapeTicketDiveEvent g resp dErr iErr).2 →
      r ∈ parseTicketDiveHtml resp.body ∧
        ∀ x ∈ parseTicketDiveHtml resp.body, dateLt x r = false) ∧
    parseTicketDiveHtml fixtureC6 = [eventC6March, eventC6Feb] ∧
    (scrapeTicketDiveEvent "g1" ⟨200, fixtureC6⟩ none none).2 =
      [DbEffect.parseHtml, DbEffect.deleteEvents "g1",
       DbEffect.insertEvent "g1" eventC6Feb] ∧
    eventC6Feb.eventDate = "2026/2/01" := by
  have hp : parseTicketDiveHtml fixtureC6 = [eventC6March, eventC6Feb] := by decide
  have hsort : sortByDate [eventC6March, eventC6Feb] = [eventC6Feb, eventC6March] := by
    decide
  refine ⟨?_, ?_, hp, ?_, rfl⟩
  · intro g resp dErr iErr
    unfold scrapeTicketDiveEvent
    split
    · split <;> simp [insertedRows]
    · dsimp only
      split
      · simp [insertedRows]
      · split
        · simp [insertedRows]
        · split <;> simp [insertedRows]
  · intro g resp dErr iErr r hmem
    unfold scrapeTicketDiveEvent at hmem
    split at hmem
    · split at hmem <;> simp at hmem
    · dsimp only at hmem
      split at hmem
      · simp at hmem
      · split at hmem
        · simp at hmem
        next nearest heq =>
          have hr : r = nearest := by
            split at hmem <;> simp at hmem <;> exact hmem
          subst hr
          cases hs : sortByDate (parseTicketDiveHtml resp.body) with
          | nil => rw [hs] at heq; exact absurd heq (by simp)
          | cons a tl =>
            rw [hs] at heq
            simp only [List.head?_cons, Option.some.injEq] at heq
            rw [← heq]
            exact sortByDate_head_min hs
  · unfold scrapeTicketDiveEvent
    have hok : respOk ⟨200, fixtureC6⟩ = true := by decide
    rw [hok]
    dsimp only
    rw [hp, hsort]
    rfl

theorem claim_C6_witness :
    eventC6Feb ∈ parseTicketDiveHtml fixtureC6 ∧
    ∀ x ∈ parseTicketDiveHtml fixtureC6, dateLt x eventC6Feb = false := by
  have h := claim_C6
  have hm : DbEffect.insertEvent "g1" eventC6Feb ∈
      (scrapeTicketDiveEvent "g1" ⟨200, fixtureC6⟩ none none).2 := by
    rw [h.2.2.2.1]
    simp
  exact h.2.1 "g1" ⟨200, fixtureC6⟩ none none eventC6Feb hm
